import Mathlib

/-!
Verification of the fiaisis/jobcontroller specification against a shallow
embedding of the source.

Python strings are embedded as `List Char`; the `py*` helpers below embed the
exact Python string primitives the source uses (`str.strip(chars)`,
`str.split(sep)`, `in`, `str.lower()`, `str.upper()`).  External collaborators
(the Kubernetes API, the container registry, `json.loads`, the filesystem) are
passed in as explicit oracle arguments, mirroring the spec's "deliberately out
of scope" interfaces.  Python exceptions are modelled with `Except PyExc`.
-/

/-- Shorthand for writing embedded Python strings. -/
def pys (s : String) : List Char := s.toList

/-- Python exception values; the payload is the text `str(exc)` would render. -/
inductive PyExc where
  | jsonDecodeError (msg : List Char)
  | typeError (msg : List Char)
  | valueError (msg : List Char)
  | keyError (msg : List Char)
  | indexError (msg : List Char)
  | attributeError (msg : List Char)
  | otherError (msg : List Char)
deriving DecidableEq, Repr

/-- Text of a Python exception, as `str(exception)` produces it. -/
def PyExc.text : PyExc → List Char
  | .jsonDecodeError m | .typeError m | .valueError m
  | .keyError m | .indexError m | .attributeError m | .otherError m => m

/-- Embedded Python `s.strip(chars)`: remove every leading and trailing
character that belongs to `cs`. -/
def pyStripChars (cs : List Char) (s : List Char) : List Char :=
  ((s.dropWhile (· ∈ cs)).reverse.dropWhile (· ∈ cs)).reverse

/-- Helper for the split functions: prepend a character to the first piece. -/
def consHead (a : Char) : List (List Char) → List (List Char)
  | [] => [[a]]
  | h :: t => (a :: h) :: t

/-- Embedded Python `s.split(", ")` (the separator used by the watcher's
annotation parsing); empty pieces are kept, `"".split(", ") = [""]`. -/
def pySplitCommaSpace : List Char → List (List Char)
  | ',' :: ' ' :: rest => [] :: pySplitCommaSpace rest
  | a :: rest => consHead a (pySplitCommaSpace rest)
  | [] => [[]]

/-- Embedded Python `s.split("://")` (used by the image-reference parsing). -/
def pySplitSchemeSep : List Char → List (List Char)
  | ':' :: '/' :: '/' :: rest => [] :: pySplitSchemeSep rest
  | a :: rest => consHead a (pySplitSchemeSep rest)
  | [] => [[]]

/-- Embedded Python `s.lower()` (ASCII, which is all the source feeds it). -/
def pyLower (s : List Char) : List Char := s.map Char.toLower

/-- Embedded Python `s.upper()` (ASCII, which is all the source feeds it). -/
def pyUpper (s : List Char) : List Char := s.map Char.toUpper

/-!
## Image digest resolver — `job_creator/jobcreator/utils.py`
-/

/-- Embedding of `get_org_image_name_and_version_from_image_path`
(utils.py 133-144).  `image_path.split("://")[-1]`, then `split("/")`
(index errors surface as Python `IndexError`), then the `split(":")`
two-element unpacking (a mismatch surfaces as Python `ValueError`). -/
def get_org_image_name_and_version_from_image_path (image_path : List Char) :
    Except PyExc (List Char × List Char × List Char) :=
  let image_path_without_https := (pySplitSchemeSep image_path).getLastD []
  let split_image_path := List.splitOn '/' image_path_without_https
  match split_image_path[1]?, split_image_path[2]? with
  | some org_name, some image_and_version =>
    match List.splitOn ':' image_and_version with
    | [image_name, version] => .ok (org_name, image_name, version)
    | _ => .error (.valueError (pys "values to unpack"))
  | _, _ => .error (.indexError (pys "list index out of range"))

/-- Embedding of `find_sha256_of_image` (utils.py 170-191).  The network
round-trip `get_sha256_using_image_from_ghcr` is an oracle `ghcr` taking the
`org/image` string and the version tag; any exception from parsing or from the
oracle is caught by the function's blanket `except`, which returns the input
unchanged. -/
def find_sha256_of_image
    (ghcr : List Char → List Char → Except PyExc (List Char))
    (image : List Char) : List Char :=
  let attempt : Except PyExc (List Char) :=
    if List.IsInfix (pys "sha256:") image then .ok image
    else
      match get_org_image_name_and_version_from_image_path image with
      | .error e => .error e
      | .ok (org_name, image_name, version) =>
        match ghcr (org_name ++ pys "/" ++ image_name) version with
        | .error e => .error e
        | .ok version_to_use =>
          .ok (pys "ghcr.io/" ++ org_name ++ pys "/" ++ image_name ++
            pys "@sha256:" ++ version_to_use)
  match attempt with
  | .ok result => result
  | .error _ => image

/-!
## Stall detection — `job_watcher/jobwatcher/job_watcher.py`
-/

/-- Number of microseconds in the `timedelta(seconds=60 * 30)` threshold. -/
def seconds_in_30_minutes_micros : Int := 60 * 30 * 1000000

/-- Embedding of `JobWatcher.check_for_pod_stalled` (job_watcher.py 224-256).
Pod age (`now - creation_timestamp`) is `elapsedMicros`, a microsecond count
(the resolution of Python `datetime`); `maxTimeToComplete` is the
`max_time_to_complete` attribute in seconds; `tailLog` is the string the
one-line, thirty-minute-window `read_namespaced_pod_log` call would return
(the source only performs that request once the pod is older than 30 minutes).
The source's early returns are flattened into nested conditionals. -/
def check_for_pod_stalled (elapsedMicros : Int) (maxTimeToComplete : Int)
    (tailLog : List Char) : Bool :=
  if elapsedMicros > seconds_in_30_minutes_micros then
    if tailLog = [] then true
    else if elapsedMicros > maxTimeToComplete * 1000000 then true
    else false
  else if elapsedMicros > maxTimeToComplete * 1000000 then true
  else false

/-- C8: the stall check flags a pod exactly when (age exceeds 30 minutes and
the one-line tail over the last 30 minutes is empty) or the age exceeds
`max_time_to_complete` seconds; hence a pod at most 30 minutes old is never
flagged by the log-silence criterion, and a pod over `max_time_to_complete`
is flagged regardless of its logs. -/
theorem check_for_pod_stalled_iff (e m : Int) (t : List Char) :
    (check_for_pod_stalled e m t = true ↔
      (e > seconds_in_30_minutes_micros ∧ t = []) ∨ e > m * 1000000) ∧
    (e ≤ seconds_in_30_minutes_micros →
      (check_for_pod_stalled e m t = true ↔ e > m * 1000000)) ∧
    (e > m * 1000000 → check_for_pod_stalled e m t = true) := by
  refine ⟨?_, ?_, ?_⟩ <;>
    · unfold check_for_pod_stalled
      split <;> simp_all

/-- C8 witness: a pod aged 35 minutes with an empty 30-minute tail is stalled,
and a pod aged 10 minutes is judged only by the `max_time_to_complete` bound. -/
theorem check_for_pod_stalled_iff_witness :
    (check_for_pod_stalled (35 * 60 * 1000000) 21600 [] = true ↔
      ((35 * 60 * 1000000 : Int) > seconds_in_30_minutes_micros ∧ ([] : List Char) = []) ∨
        (35 * 60 * 1000000 : Int) > 21600 * 1000000) ∧
    (check_for_pod_stalled (10 * 60 * 1000000) 300 [] = true ↔
      (10 * 60 * 1000000 : Int) > 300 * 1000000) := by
  constructor
  · exact (check_for_pod_stalled_iff (35 * 60 * 1000000) 21600 []).1
  · exact (check_for_pod_stalled_iff (10 * 60 * 1000000) 300 []).2.1 (by decide)

/-- C7: for every input image reference and every registry oracle, the
resolver's result either contains `@sha256:` or equals the input unchanged;
a reference already containing `sha256:` is returned unchanged; and every
failure (reference parsing or the registry round-trip) returns the input. -/
theorem find_sha256_of_image_spec
    (ghcr : List Char → List Char → Except PyExc (List Char)) (image : List Char) :
    (List.IsInfix (pys "@sha256:") (find_sha256_of_image ghcr image) ∨
      find_sha256_of_image ghcr image = image) ∧
    (List.IsInfix (pys "sha256:") image → find_sha256_of_image ghcr image = image) ∧
    (∀ org name ver e,
      get_org_image_name_and_version_from_image_path image = .ok (org, name, ver) →
      ghcr (org ++ pys "/" ++ name) ver = .error e →
      find_sha256_of_image ghcr image = image) ∧
    (∀ e, get_org_image_name_and_version_from_image_path image = .error e →
      find_sha256_of_image ghcr image = image) := by
  by_cases hsha : List.IsInfix (pys "sha256:") image
  · have hres : find_sha256_of_image ghcr image = image := by
      simp [find_sha256_of_image, hsha]
    exact ⟨Or.inr hres, fun _ => hres, fun _ _ _ _ _ _ => hres, fun _ _ => hres⟩
  · cases hparse : get_org_image_name_and_version_from_image_path image with
    | error e =>
      have hres : find_sha256_of_image ghcr image = image := by
        simp [find_sha256_of_image, hsha, hparse]
      exact ⟨Or.inr hres, fun h => absurd h hsha, fun _ _ _ _ _ _ => hres, fun _ _ => hres⟩
    | ok triple =>
      obtain ⟨org, name, ver⟩ := triple
      cases hghcr : ghcr (org ++ pys "/" ++ name) ver with
      | error e =>
        have hres : find_sha256_of_image ghcr image = image := by
          simp [find_sha256_of_image, hsha, hparse, ← List.append_assoc, hghcr]
        exact ⟨Or.inr hres, fun h => absurd h hsha, fun _ _ _ _ _ _ => hres, fun _ _ => hres⟩
      | ok sha =>
        have hres : find_sha256_of_image ghcr image =
            pys "ghcr.io/" ++ org ++ pys "/" ++ name ++ pys "@sha256:" ++ sha := by
          simp [find_sha256_of_image, hsha, hparse, ← List.append_assoc, hghcr]
        refine ⟨Or.inl ?_, fun h => absurd h hsha, ?_, ?_⟩
        · rw [hres]
          exact List.infix_append _ _ _
        · intro org' name' ver' e' hok herr
          simp only [Except.ok.injEq, Prod.mk.injEq] at hok
          obtain ⟨rfl, rfl, rfl⟩ := hok
          rw [hghcr] at herr
          exact Except.noConfusion herr
        · intro e' habs
          exact Except.noConfusion habs

/-- C7 witness: a digest-pinned reference passes through unchanged, and with a
registry oracle that fails, a tagged reference also comes back unchanged. -/
theorem find_sha256_of_image_spec_witness :
    find_sha256_of_image (fun _ _ => .error (.otherError []))
        (pys "ghcr.io/fiaisis/mantid@sha256:abc") =
      pys "ghcr.io/fiaisis/mantid@sha256:abc" ∧
    find_sha256_of_image (fun _ _ => .error (.otherError (pys "connection refused")))
        (pys "ghcr.io/fiaisis/mantid:6.9.1") =
      pys "ghcr.io/fiaisis/mantid:6.9.1" := by
  constructor
  · exact (find_sha256_of_image_spec (fun _ _ => .error (.otherError []))
      (pys "ghcr.io/fiaisis/mantid@sha256:abc")).2.1 (by decide)
  · exact (find_sha256_of_image_spec (fun _ _ => .error (.otherError (pys "connection refused")))
      (pys "ghcr.io/fiaisis/mantid:6.9.1")).2.2.1
      (pys "fiaisis") (pys "mantid") (pys "6.9.1") (.otherError (pys "connection refused"))
      rfl rfl

/-!
## Annotation encoding (creator) and cleanup parsing (watcher)
-/

/-- Embedded CPython `repr` of a string as it appears inside `str(list)`:
single-quoted, switching to double quotes when the string contains a single
quote but no double quote.  Escape sequences are not modelled; every use in
this file is guarded by hypotheses excluding quote, backslash and control
characters. -/
def pyReprStr (s : List Char) : List Char :=
  if '\'' ∈ s ∧ '"' ∉ s then '"' :: s ++ ['"'] else '\'' :: s ++ ['\'']

/-- Embedded Python `str(names)` for a list of strings, as `spawn_job` uses it
to fill the `pvs` and `pvcs` annotations (job_creator.py 443-444). -/
def pyStrOfStrList (l : List (List Char)) : List Char :=
  '[' :: List.intercalate (pys ", ") (l.map pyReprStr) ++ [']']

/-- Embedding of `clean_up_pvcs_for_job` (job_watcher.py 25-43): the ordered
list of claim names the watcher passes to
`delete_namespaced_persistent_volume_claim`, computed from the workload's
`pvcs` annotation string. -/
def clean_up_pvcs_for_job_deletions (pvcsAnnot : List Char) : List (List Char) :=
  let pvcs_to_delete := pySplitCommaSpace (pyStripChars [']', '['] pvcsAnnot)
  pvcs_to_delete.filterMap fun pvc =>
    let pvc_name := pyStripChars ['\''] pvc
    if pvc_name ≠ pys "None" then some (pyStripChars ['"'] (pyStripChars ['\''] pvc)) else none

/-- Embedding of `clean_up_pvs_for_job` (job_watcher.py 45-61): the ordered
list of volume names the watcher passes to `delete_persistent_volume`,
computed from the workload's `pvs` annotation string. -/
def clean_up_pvs_for_job_deletions (pvsAnnot : List Char) : List (List Char) :=
  let pvs_to_delete := pySplitCommaSpace (pyStripChars [']', '['] pvsAnnot)
  pvs_to_delete.filterMap fun pv =>
    let pv_name := pyStripChars ['"'] (pyStripChars ['\''] pv)
    if pv_name ≠ pys "None" then some pv_name else none

/-- Volume names `spawn_job` provisions and records, in creation order
(job_creator.py 288-332 and 377-378): archive, extras, ceph (production only),
and the IMAT share when `"imat"` is in `special_pvs`. -/
def spawn_job_pv_names (job_name : List Char) (dev_mode : Bool)
    (special_pvs : List (List Char)) : List (List Char) :=
  [job_name ++ pys "-archive-pv-smb", job_name ++ pys "-extras-pv"] ++
    (if dev_mode then [] else [job_name ++ pys "-ceph-pv"]) ++
    (if pys "imat" ∈ special_pvs then [job_name ++ pys "-ndximat-pv-smb"] else [])

/-- Claim names `spawn_job` provisions and records, in creation order
(job_creator.py 302-336 and 377-378). -/
def spawn_job_pvc_names (job_name : List Char) (dev_mode : Bool)
    (special_pvs : List (List Char)) : List (List Char) :=
  [job_name ++ pys "-archive-pvc", job_name ++ pys "-extras-pvc"] ++
    (if dev_mode then [] else [job_name ++ pys "-ceph-pvc"]) ++
    (if pys "imat" ∈ special_pvs then [job_name ++ pys "-ndximat-pvc"] else [])

/-- Characters of a Kubernetes-acceptable resource name (DNS-1123 subdomain):
lowercase alphanumerics, `-` and `.`.  `create_namespaced_job` and the volume
and claim creation calls reject anything else, so a submitted job satisfies
this for its `job_name`. -/
def k8sNameChars : List Char := pys "abcdefghijklmnopqrstuvwxyz0123456789-."

/-- Round-trip helper: dropping while a predicate fails on every element is
the identity. -/
theorem dropWhile_eq_self_of_all {p : Char → Bool} {l : List Char}
    (h : ∀ c ∈ l, ¬ p c) : l.dropWhile p = l := by
  cases l with
  | nil => rfl
  | cons c t =>
    rw [List.dropWhile_cons, if_neg]
    simp only [Bool.not_eq_true] at h ⊢
    exact h c (by simp)

/-- Round-trip helper: `pyStripChars` removes exactly one wrapping pair when
the wrapped body contains no strippable character. -/
theorem pyStripChars_wrap {cs : List Char} {a b : Char} {m : List Char}
    (ha : a ∈ cs) (hb : b ∈ cs) (hm : ∀ c ∈ m, c ∉ cs) :
    pyStripChars cs (a :: m ++ [b]) = m := by
  have h1 : (a :: m ++ [b]).dropWhile (· ∈ cs) = (m ++ [b]).dropWhile (· ∈ cs) := by
    rw [List.cons_append, List.dropWhile_cons, if_pos (by simpa using ha)]
  have h2 : (m ++ [b]).dropWhile (· ∈ cs) = m ++ [b] ∨ m = [] := by
    cases m with
    | nil => right; rfl
    | cons c t =>
      left
      rw [List.cons_append, List.dropWhile_cons, if_neg (by simpa using hm c (by simp))]
  unfold pyStripChars
  rw [h1]
  rcases h2 with h2 | rfl
  · rw [h2, List.reverse_append, List.reverse_singleton, List.singleton_append,
      List.dropWhile_cons, if_pos (by simpa using hb),
      dropWhile_eq_self_of_all (p := (· ∈ cs)) (l := m.reverse)
        (fun c hc => by simpa using hm c (List.mem_reverse.mp hc)),
      List.reverse_reverse]
  · simp [hb]

/-- Round-trip helper: the identity case of `pyStripChars`. -/
theorem pyStripChars_eq_self {cs : List Char} {m : List Char}
    (hm : ∀ c ∈ m, c ∉ cs) : pyStripChars cs m = m := by
  unfold pyStripChars
  rw [dropWhile_eq_self_of_all (p := (· ∈ cs)) (l := m)
      (fun c hc => by simpa using hm c hc),
    dropWhile_eq_self_of_all (p := (· ∈ cs)) (l := m.reverse)
      (fun c hc => by simpa using hm c (List.mem_reverse.mp hc)),
    List.reverse_reverse]

/-- Round-trip helper: a character other than a comma never begins a
separator match in `pySplitCommaSpace`. -/
theorem pySplitCommaSpace_cons_ne (c : Char) (xs : List Char) (hc : c ≠ ',') :
    pySplitCommaSpace (c :: xs) = consHead c (pySplitCommaSpace xs) := by
  rw [pySplitCommaSpace.eq_def]
  split
  · rename_i h
    injection h with h1 h2
    exact absurd h1 hc
  · rename_i heq
    injection heq with h1 h2
    subst h1
    subst h2
    rfl
  · rename_i heq
    cases heq

/-- Round-trip helper: splitting on `", "` undoes prepending a comma-free
piece followed by the separator. -/
theorem pySplitCommaSpace_append (p t : List Char) (hp : ',' ∉ p) :
    pySplitCommaSpace (p ++ pys ", " ++ t) = p :: pySplitCommaSpace t := by
  induction p with
  | nil => rfl
  | cons c p' ih =>
    have hc : c ≠ ',' := fun h => hp (h ▸ List.mem_cons_self c p')
    have hp' : ',' ∉ p' := fun h => hp (List.mem_cons_of_mem c h)
    rw [List.cons_append, List.cons_append, pySplitCommaSpace_cons_ne c _ hc, ih hp']
    rfl

/-- Round-trip helper: a comma-free string does not split. -/
theorem pySplitCommaSpace_no_comma (p : List Char) (hp : ',' ∉ p) :
    pySplitCommaSpace p = [p] := by
  induction p with
  | nil => rfl
  | cons c p' ih =>
    have hc : c ≠ ',' := fun h => hp (h ▸ List.mem_cons_self c p')
    have hp' : ',' ∉ p' := fun h => hp (List.mem_cons_of_mem c h)
    rw [pySplitCommaSpace_cons_ne c _ hc, ih hp']
    rfl

/-- Round-trip helper: splitting on `", "` is a left inverse of intercalating
with it, for comma-free pieces. -/
theorem pySplitCommaSpace_intercalate (parts : List (List Char))
    (h : ∀ p ∈ parts, ',' ∉ p) (hne : parts ≠ []) :
    pySplitCommaSpace (List.intercalate (pys ", ") parts) = parts := by
  induction parts with
  | nil => exact absurd rfl hne
  | cons p rest ih =>
    cases rest with
    | nil =>
      have hone : List.intercalate (pys ", ") [p] = p := by
        simp [List.intercalate, List.intersperse]
      rw [hone]
      exact pySplitCommaSpace_no_comma p (h p (by simp))
    | cons q r =>
      have hcons : List.intercalate (pys ", ") (p :: q :: r) =
          p ++ pys ", " ++ List.intercalate (pys ", ") (q :: r) := by
        simp [List.intercalate, List.intersperse]
      rw [hcons, pySplitCommaSpace_append p _ (h p (by simp)),
        ih (fun x hx => h x (by simp [hx])) (by simp)]

/-- Round-trip helper: membership in an intercalation comes from the
separator or from one of the pieces. -/
theorem mem_intercalate {c : Char} {sep : List Char} {parts : List (List Char)}
    (h : c ∈ List.intercalate sep parts) : c ∈ sep ∨ ∃ p ∈ parts, c ∈ p := by
  induction parts with
  | nil =>
    simp [List.intercalate, List.intersperse] at h
  | cons p rest ih =>
    cases rest with
    | nil =>
      simp only [List.intercalate, List.intersperse, List.flatten] at h
      right
      exact ⟨p, by simp, by simpa using h⟩
    | cons q r =>
      have hcons : List.intercalate sep (p :: q :: r) =
          p ++ sep ++ List.intercalate sep (q :: r) := by
        simp [List.intercalate, List.intersperse]
      rw [hcons] at h
      simp only [List.append_assoc, List.mem_append] at h
      rcases h with h | h | h
      · exact Or.inr ⟨p, by simp, h⟩
      · exact Or.inl h
      · rcases ih h with h | ⟨x, hx, hcx⟩
        · exact Or.inl h
        · exact Or.inr ⟨x, by simp [hx], hcx⟩

/-- Round-trip helper: a `filterMap` whose function fixes every member is the
identity. -/
theorem filterMap_eq_self {f : List Char → Option (List Char)}
    {l : List (List Char)} (h : ∀ p ∈ l, f p = some p) : l.filterMap f = l := by
  induction l with
  | nil => rfl
  | cons p rest ih =>
    rw [List.filterMap_cons, h p (by simp), ih (fun x hx => h x (by simp [hx]))]

/-- Round-trip helper: names made only of Kubernetes name characters contain
no quote, comma, bracket or capital letter. -/
theorem k8s_name_chars_disjoint :
    ∀ c ∈ k8sNameChars, c ≠ ',' ∧ c ≠ '\'' ∧ c ≠ '"' ∧ c ≠ '[' ∧ c ≠ ']' ∧ c ≠ 'N' := by
  decide

/-- Round-trip core: parsing the stringified list of clean names recovers
exactly those names, for the `pvs` variant of the watcher's cleanup. -/
theorem clean_up_pvs_roundtrip (parts : List (List Char)) (hne : parts ≠ [])
    (hclean : ∀ p ∈ parts, p ≠ [] ∧ ∀ c ∈ p, c ∈ k8sNameChars) :
    clean_up_pvs_for_job_deletions (pyStrOfStrList parts) = parts := by
  have hnoq : ∀ p ∈ parts, '\'' ∉ p := fun p hp hq =>
    ((k8s_name_chars_disjoint '\'' ((hclean p hp).2 '\'' hq)).2.1) rfl
  have hrepr : ∀ p ∈ parts, pyReprStr p = '\'' :: p ++ ['\''] := by
    intro p hp
    rw [pyReprStr, if_neg]
    rintro ⟨hq, -⟩
    exact hnoq p hp hq
  have hmid : ∀ c ∈ List.intercalate (pys ", ") (parts.map pyReprStr), c ∉ [']', '['] := by
    intro c hc
    rcases mem_intercalate hc with hc | ⟨q, hq, hcq⟩
    · simp only [pys, String.toList] at hc
      rcases List.mem_pair.mp hc with rfl | rfl <;> decide
    · rcases List.mem_map.mp hq with ⟨p, hp, rfl⟩
      rw [hrepr p hp] at hcq
      simp only [List.cons_append, List.mem_cons, List.mem_append,
        List.not_mem_nil, or_false] at hcq
      rcases hcq with rfl | hcp | rfl
      · decide
      · have := k8s_name_chars_disjoint c ((hclean p hp).2 c hcp)
        simp [this.2.2.2.1, this.2.2.2.2.1]
      · decide
  have hstrip : pyStripChars [']', '['] (pyStrOfStrList parts) =
      List.intercalate (pys ", ") (parts.map pyReprStr) := by
    rw [pyStrOfStrList]
    exact pyStripChars_wrap (by decide) (by decide) hmid
  have hsplitOK : pySplitCommaSpace (List.intercalate (pys ", ") (parts.map pyReprStr)) =
      parts.map pyReprStr := by
    refine pySplitCommaSpace_intercalate _ ?_ (by simpa using hne)
    intro q hq hcomma
    rcases List.mem_map.mp hq with ⟨p, hp, rfl⟩
    rw [hrepr p hp] at hcomma
    simp only [List.cons_append, List.mem_cons, List.mem_append,
      List.mem_singleton] at hcomma
    rcases hcomma with h | h | h
    · exact absurd h.symm (by decide)
    · exact (k8s_name_chars_disjoint ',' ((hclean p hp).2 ',' h)).1 rfl
    · exact absurd h.symm (by decide)
  unfold clean_up_pvs_for_job_deletions
  rw [hstrip, hsplitOK, List.filterMap_map]
  refine filterMap_eq_self ?_
  intro p hp
  have hq1 : pyStripChars ['\''] (pyReprStr p) = p := by
    rw [hrepr p hp]
    exact pyStripChars_wrap (by decide) (by decide)
      (fun c hcp h => by
        have := k8s_name_chars_disjoint c ((hclean p hp).2 c hcp)
        simp only [List.mem_singleton] at h
        exact this.2.1 h)
  have hq2 : pyStripChars ['"'] p = p :=
    pyStripChars_eq_self (fun c hcp h => by
      have := k8s_name_chars_disjoint c ((hclean p hp).2 c hcp)
      simp only [List.mem_singleton] at h
      exact this.2.2.1 h)
  have hnn : p ≠ pys "None" := by
    intro hcon
    have : 'N' ∈ p := by
      rw [hcon]
      decide
    exact (k8s_name_chars_disjoint 'N' ((hclean p hp).2 'N' this)).2.2.2.2.2 rfl
  simp only [Function.comp_apply, hq1, hq2, if_pos hnn]

/-- Round-trip core: parsing the stringified list of clean names recovers
exactly those names, for the `pvcs` variant of the watcher's cleanup. -/
theorem clean_up_pvcs_roundtrip (parts : List (List Char)) (hne : parts ≠ [])
    (hclean : ∀ p ∈ parts, p ≠ [] ∧ ∀ c ∈ p, c ∈ k8sNameChars) :
    clean_up_pvcs_for_job_deletions (pyStrOfStrList parts) = parts := by
  have hnoq : ∀ p ∈ parts, '\'' ∉ p := fun p hp hq =>
    ((k8s_name_chars_disjoint '\'' ((hclean p hp).2 '\'' hq)).2.1) rfl
  have hrepr : ∀ p ∈ parts, pyReprStr p = '\'' :: p ++ ['\''] := by
    intro p hp
    rw [pyReprStr, if_neg]
    rintro ⟨hq, -⟩
    exact hnoq p hp hq
  have hmid : ∀ c ∈ List.intercalate (pys ", ") (parts.map pyReprStr), c ∉ [']', '['] := by
    intro c hc
    rcases mem_intercalate hc with hc | ⟨q, hq, hcq⟩
    · simp only [pys, String.toList] at hc
      rcases List.mem_pair.mp hc with rfl | rfl <;> decide
    · rcases List.mem_map.mp hq with ⟨p, hp, rfl⟩
      rw [hrepr p hp] at hcq
      simp only [List.cons_append, List.mem_cons, List.mem_append,
        List.not_mem_nil, or_false] at hcq
      rcases hcq with rfl | hcp | rfl
      · decide
      · have := k8s_name_chars_disjoint c ((hclean p hp).2 c hcp)
        simp [this.2.2.2.1, this.2.2.2.2.1]
      · decide
  have hstrip : pyStripChars [']', '['] (pyStrOfStrList parts) =
      List.intercalate (pys ", ") (parts.map pyReprStr) := by
    rw [pyStrOfStrList]
    exact pyStripChars_wrap (by decide) (by decide) hmid
  have hsplitOK : pySplitCommaSpace (List.intercalate (pys ", ") (parts.map pyReprStr)) =
      parts.map pyReprStr := by
    refine pySplitCommaSpace_intercalate _ ?_ (by simpa using hne)
    intro q hq hcomma
    rcases List.mem_map.mp hq with ⟨p, hp, rfl⟩
    rw [hrepr p hp] at hcomma
    simp only [List.cons_append, List.mem_cons, List.mem_append,
      List.not_mem_nil, or_false] at hcomma
    rcases hcomma with h | h | h
    · exact absurd h.symm (by decide)
    · exact (k8s_name_chars_disjoint ',' ((hclean p hp).2 ',' h)).1 rfl
    · exact absurd h.symm (by decide)
  unfold clean_up_pvcs_for_job_deletions
  rw [hstrip, hsplitOK, List.filterMap_map]
  refine filterMap_eq_self ?_
  intro p hp
  have hq1 : pyStripChars ['\''] (pyReprStr p) = p := by
    rw [hrepr p hp]
    exact pyStripChars_wrap (by decide) (by decide)
      (fun c hcp h => by
        have := k8s_name_chars_disjoint c ((hclean p hp).2 c hcp)
        simp only [List.mem_singleton] at h
        exact this.2.1 h)
  have hq2 : pyStripChars ['"'] p = p :=
    pyStripChars_eq_self (fun c hcp h => by
      have := k8s_name_chars_disjoint c ((hclean p hp).2 c hcp)
      simp only [List.mem_singleton] at h
      exact this.2.2.1 h)
  have hnn : p ≠ pys "None" := by
    intro hcon
    have : 'N' ∈ p := by
      rw [hcon]
      decide
    exact (k8s_name_chars_disjoint 'N' ((hclean p hp).2 'N' this)).2.2.2.2.2 rfl
  simp only [Function.comp_apply, hq1, hq2, if_pos hnn]

/-- Round-trip helper: a job name of Kubernetes name characters plus one of
the fixed resource suffixes is a clean, non-empty name. -/
theorem suffixed_name_clean (j sfx : List Char)
    (hj : ∀ c ∈ j, c ∈ k8sNameChars)
    (hs : sfx ≠ [] ∧ ∀ c ∈ sfx, c ∈ k8sNameChars) :
    j ++ sfx ≠ [] ∧ ∀ c ∈ j ++ sfx, c ∈ k8sNameChars := by
  refine ⟨by simp [hs.1], fun c hc => ?_⟩
  rcases List.mem_append.mp hc with h | h
  · exact hj c h
  · exact hs.2 c h

/-- Round-trip helper: every provisioned volume name is the job name plus one
of four fixed suffixes. -/
theorem spawn_job_pv_names_cases (j : List Char) (d : Bool) (s : List (List Char)) :
    ∀ p ∈ spawn_job_pv_names j d s,
      p = j ++ pys "-archive-pv-smb" ∨ p = j ++ pys "-extras-pv" ∨
      p = j ++ pys "-ceph-pv" ∨ p = j ++ pys "-ndximat-pv-smb" := by
  intro p hp
  simp only [spawn_job_pv_names, List.mem_append] at hp
  rcases hp with (h | h) | h
  · simp only [List.mem_cons, List.not_mem_nil, or_false] at h
    tauto
  · split at h
    · simp at h
    · simp only [List.mem_singleton] at h
      tauto
  · split at h
    · simp only [List.mem_singleton] at h
      tauto
    · simp at h

/-- Round-trip helper: every provisioned claim name is the job name plus one
of four fixed suffixes. -/
theorem spawn_job_pvc_names_cases (j : List Char) (d : Bool) (s : List (List Char)) :
    ∀ p ∈ spawn_job_pvc_names j d s,
      p = j ++ pys "-archive-pvc" ∨ p = j ++ pys "-extras-pvc" ∨
      p = j ++ pys "-ceph-pvc" ∨ p = j ++ pys "-ndximat-pvc" := by
  intro p hp
  simp only [spawn_job_pvc_names, List.mem_append] at hp
  rcases hp with (h | h) | h
  · simp only [List.mem_cons, List.not_mem_nil, or_false] at h
    tauto
  · split at h
    · simp at h
    · simp only [List.mem_singleton] at h
      tauto
  · split at h
    · simp only [List.mem_singleton] at h
      tauto
    · simp at h

/-- C2: for every job the creator submits (a job name made of characters the
cluster accepts for resource names), the watcher's parse of the `pvs` and
`pvcs` annotations written by `spawn_job` recovers exactly the volume and
claim names the creator provisioned — the cleanup deletes that set, no more
and no fewer, in either deployment mode and with or without the IMAT extras. -/
theorem annotations_cleanup_exact (job_name : List Char) (dev_mode : Bool)
    (special_pvs : List (List Char))
    (hname : ∀ c ∈ job_name, c ∈ k8sNameChars) :
    clean_up_pvs_for_job_deletions
        (pyStrOfStrList (spawn_job_pv_names job_name dev_mode special_pvs)) =
      spawn_job_pv_names job_name dev_mode special_pvs ∧
    clean_up_pvcs_for_job_deletions
        (pyStrOfStrList (spawn_job_pvc_names job_name dev_mode special_pvs)) =
      spawn_job_pvc_names job_name dev_mode special_pvs := by
  have hpv : ∀ p ∈ spawn_job_pv_names job_name dev_mode special_pvs,
      p ≠ [] ∧ ∀ c ∈ p, c ∈ k8sNameChars := by
    intro p hp
    rcases spawn_job_pv_names_cases job_name dev_mode special_pvs p hp with
      rfl | rfl | rfl | rfl <;> exact suffixed_name_clean _ _ hname (by decide)
  have hpvc : ∀ p ∈ spawn_job_pvc_names job_name dev_mode special_pvs,
      p ≠ [] ∧ ∀ c ∈ p, c ∈ k8sNameChars := by
    intro p hp
    rcases spawn_job_pvc_names_cases job_name dev_mode special_pvs p hp with
      rfl | rfl | rfl | rfl <;> exact suffixed_name_clean _ _ hname (by decide)
  constructor
  · exact clean_up_pvs_roundtrip _ (by simp [spawn_job_pv_names]) hpv
  · exact clean_up_pvcs_roundtrip _ (by simp [spawn_job_pvc_names]) hpvc

/-- C2 witness: a concrete production-mode job: the creator records three
volumes and three claims and the watcher's parse recovers exactly those. -/
theorem annotations_cleanup_exact_witness :
    (∀ c ∈ pys "run-owner7-requested-1f2e3d", c ∈ k8sNameChars) ∧
    clean_up_pvs_for_job_deletions
        (pyStrOfStrList (spawn_job_pv_names (pys "run-owner7-requested-1f2e3d") false [])) =
      spawn_job_pv_names (pys "run-owner7-requested-1f2e3d") false [] := by
  exact ⟨by decide,
    (annotations_cleanup_exact (pys "run-owner7-requested-1f2e3d") false [] (by decide)).1⟩

/-!
## Watcher actions — cleanup ordering and the observation loop
-/

/-- Embedded Python values as they flow through the creator and watcher
(decoded JSON, message fields).  Python `None` and absent fields are both
modelled as `Option.none` at the use sites, matching `dict.get` semantics. -/
inductive PyVal where
  | str (s : List Char)
  | int (n : Int)
  | list (items : List PyVal)
  | dict (fields : List (List Char × PyVal))

/-- Payload of the PATCH the watcher sends to `/job/job_id` on the HTTP API
(`JobWatcher._update_job_status`, job_watcher.py 291-320). -/
structure PatchData where
  jobId : Option (List Char)
  state : List Char
  statusMessage : PyVal
  outputFiles : PyVal
  start : List Char
  stacktrace : PyVal
  endTime : List Char

/-- Externally visible calls the watcher makes, in program order. -/
inductive K8sAction where
  | deletePersistentVolume (name : List Char)
  | deletePersistentVolumeClaim (name : List Char) (ns : List Char)
  | patchJobStatus (data : PatchData)

/-- Discriminator for volume deletions. -/
def K8sAction.isDeletePV : K8sAction → Bool
  | .deletePersistentVolume _ => true
  | _ => false

/-- Discriminator for claim deletions. -/
def K8sAction.isDeletePVC : K8sAction → Bool
  | .deletePersistentVolumeClaim _ _ => true
  | _ => false

/-- Discriminator for status reports. -/
def K8sAction.isPatch : K8sAction → Bool
  | .patchJobStatus _ => true
  | _ => false

/-- Deletion calls `clean_up_pvs_for_job` performs, in order
(job_watcher.py 45-61): one cluster-wide `delete_persistent_volume` per
parsed, non-`None` name. -/
def clean_up_pvs_for_job_actions (pvsAnnot : List Char) : List K8sAction :=
  (clean_up_pvs_for_job_deletions pvsAnnot).map K8sAction.deletePersistentVolume

/-- Deletion calls `clean_up_pvcs_for_job` performs, in order
(job_watcher.py 25-43): one namespaced `delete_namespaced_persistent_volume_claim`
per parsed, non-`None` name. -/
def clean_up_pvcs_for_job_actions (pvcsAnnot : List Char) (ns : List Char) :
    List K8sAction :=
  (clean_up_pvcs_for_job_deletions pvcsAnnot).map
    (K8sAction.deletePersistentVolumeClaim · ns)

/-- Embedding of `JobWatcher.cleanup_job` (job_watcher.py 396-405): it calls
`clean_up_pvs_for_job(self.job)` first and `clean_up_pvcs_for_job(self.job,
self.namespace)` second. -/
def cleanup_job_actions (pvsAnnot pvcsAnnot ns : List Char) :
    List K8sAction :=
  clean_up_pvs_for_job_actions pvsAnnot ++
    clean_up_pvcs_for_job_actions pvcsAnnot ns

/-- Statement of claim C9 over an action trace: every claim deletion occurs
strictly before every volume deletion. -/
def pvcsBeforePvs (acts : List K8sAction) : Prop :=
  ∀ i j : Fin acts.length,
    (acts.get i).isDeletePVC = true → (acts.get j).isDeletePV = true → (i : ℕ) < (j : ℕ)

/-- Reversed ordering, which is what the code does: every volume deletion
occurs strictly before every claim deletion. -/
def pvsBeforePvcs (acts : List K8sAction) : Prop :=
  ∀ i j : Fin acts.length,
    (acts.get i).isDeletePV = true → (acts.get j).isDeletePVC = true → (i : ℕ) < (j : ℕ)

/-- Ordering helper: a claim deletion is not a volume deletion. -/
theorem K8sAction.pv_of_pvc_false (a : K8sAction) (h : a.isDeletePVC = true) :
    a.isDeletePV = false := by
  cases a <;> simp_all [K8sAction.isDeletePV, K8sAction.isDeletePVC]

/-- Ordering helper: a volume deletion is not a claim deletion. -/
theorem K8sAction.pvc_of_pv_false (a : K8sAction) (h : a.isDeletePV = true) :
    a.isDeletePVC = false := by
  cases a <;> simp_all [K8sAction.isDeletePV, K8sAction.isDeletePVC]

/-- C9 (amended): during terminal cleanup the watcher deletes every volume
named in the `pvs` annotation strictly before any claim named in the `pvcs`
annotation — `cleanup_job` calls `clean_up_pvs_for_job` first and
`clean_up_pvcs_for_job` second, the reverse of the claimed order. -/
theorem cleanup_job_pvs_before_pvcs (pvsAnn pvcsAnn ns : List Char) :
    pvsBeforePvcs (cleanup_job_actions pvsAnn pvcsAnn ns) := by
  intro i j hi hj
  have hlen : (cleanup_job_actions pvsAnn pvcsAnn ns).length =
      (clean_up_pvs_for_job_actions pvsAnn).length +
        (clean_up_pvcs_for_job_actions pvcsAnn ns).length := by
    simp [cleanup_job_actions]
  have hiA : (i : ℕ) < (clean_up_pvs_for_job_actions pvsAnn).length := by
    by_contra hcon
    push_neg at hcon
    have hsub : (i : ℕ) - (clean_up_pvs_for_job_actions pvsAnn).length <
        (clean_up_pvcs_for_job_actions pvcsAnn ns).length := by
      have := i.isLt
      omega
    have hget : (cleanup_job_actions pvsAnn pvcsAnn ns).get i =
        (clean_up_pvcs_for_job_actions pvcsAnn ns).get
          ⟨(i : ℕ) - (clean_up_pvs_for_job_actions pvsAnn).length, hsub⟩ := by
      rw [List.get_eq_getElem, List.get_eq_getElem]
      exact List.getElem_append_right hcon
    have hmem : (clean_up_pvcs_for_job_actions pvcsAnn ns).get
        ⟨(i : ℕ) - (clean_up_pvs_for_job_actions pvsAnn).length, hsub⟩ ∈
          clean_up_pvcs_for_job_actions pvcsAnn ns := List.get_mem _ _ _
    rcases List.mem_map.mp hmem with ⟨x, -, hx⟩
    rw [hget, ← hx] at hi
    simp [K8sAction.isDeletePV] at hi
  have hjB : (clean_up_pvs_for_job_actions pvsAnn).length ≤ (j : ℕ) := by
    by_contra hcon
    push_neg at hcon
    have hget : (cleanup_job_actions pvsAnn pvcsAnn ns).get j =
        (clean_up_pvs_for_job_actions pvsAnn).get ⟨(j : ℕ), hcon⟩ := by
      rw [List.get_eq_getElem, List.get_eq_getElem]
      exact List.getElem_append_left hcon
    have hmem : (clean_up_pvs_for_job_actions pvsAnn).get ⟨(j : ℕ), hcon⟩ ∈
        clean_up_pvs_for_job_actions pvsAnn := List.get_mem _ _ _
    rcases List.mem_map.mp hmem with ⟨x, -, hx⟩
    rw [hget, ← hx] at hj
    simp [K8sAction.isDeletePVC] at hj
  omega

/-- C9 witness: a concrete cleanup trace with one volume and one claim
satisfies the volumes-first ordering. -/
theorem cleanup_job_pvs_before_pvcs_witness :
    pvsBeforePvcs (cleanup_job_actions (pyStrOfStrList [pys "j-extras-pv"])
      (pyStrOfStrList [pys "j-extras-pvc"]) (pys "fia")) :=
  cleanup_job_pvs_before_pvcs (pyStrOfStrList [pys "j-extras-pv"])
    (pyStrOfStrList [pys "j-extras-pvc"]) (pys "fia")

/-- C9 counterexample: with one volume and one claim recorded, the cleanup
trace deletes the volume at position 0 and the claim at position 1, so the
claimed claims-before-volumes ordering is false. -/
theorem cleanup_job_order_counterexample :
    ¬ pvcsBeforePvs (cleanup_job_actions (pyStrOfStrList [pys "j-extras-pv"])
      (pyStrOfStrList [pys "j-extras-pvc"]) (pys "fia")) := by
  intro h
  have hlen : (cleanup_job_actions (pyStrOfStrList [pys "j-extras-pv"])
      (pyStrOfStrList [pys "j-extras-pvc"]) (pys "fia")).length = 2 := by rfl
  have := h (Fin.cast hlen.symm 1) (Fin.cast hlen.symm 0) (by rfl) (by rfl)
  simp at this

/-- Embedding of `JobWatcher.check_for_job_complete` (job_watcher.py 202-222)
as the externally visible calls it makes plus its boolean result.
`containerStatus` is what `get_container_status` finds: `none` when the main
container is missing (the source raises `ValueError`), `some none` when it is
found but not terminated, and `some (some code)` when terminated with that
exit code.  `successActs` and `failActs` are the call traces of
`process_job_success` and `process_job_failed` respectively. -/
def check_for_job_complete_result (containerName : List Char)
    (containerStatus : Option (Option Int))
    (successActs failActs : List K8sAction) : Except PyExc (List K8sAction × Bool) :=
  match containerStatus with
  | none => .error (.valueError (pys "Container not found: " ++ containerName))
  | some none => .ok ([], false)
  | some (some exit_code) =>
    if exit_code = 0 then .ok (successActs, true) else .ok (failActs, true)

/-- Embedding of `JobWatcher.check_for_changes` (job_watcher.py 175-188) as
the calls it makes plus the final `done_watching` flag.  `stalled` is the
value `check_for_pod_stalled` returns and `cleanupActs` the call trace of
`cleanup_job`; the source runs `cleanup_job` after a completed job, or on the
stall branch alone, and otherwise does nothing. -/
def check_for_changes_result (containerName : List Char)
    (containerStatus : Option (Option Int)) (successActs failActs : List K8sAction)
    (stalled : Bool) (cleanupActs : List K8sAction) :
    Except PyExc (List K8sAction × Bool) :=
  match check_for_job_complete_result containerName containerStatus successActs failActs with
  | .error e => .error e
  | .ok (acts, true) => .ok (acts ++ cleanupActs, true)
  | .ok (_, false) =>
    if stalled then .ok (cleanupActs, true) else .ok ([], false)

/-- C1 counterexample: a job that is still running (container found, not
terminated) but stalled (pod aged 35 minutes, empty 30-minute tail) ends its
observation loop with exactly the cleanup deletions and no PATCH status
report at all — contradicting the claim that a `state=ERROR` report is sent
before cleanup on the stall path. -/
theorem stall_path_no_report_counterexample :
    check_for_changes_result (pys "job1") (some none) [] []
        (check_for_pod_stalled (35 * 60 * 1000000) 21600 [])
        (cleanup_job_actions (pyStrOfStrList [pys "j-extras-pv"])
          (pyStrOfStrList [pys "j-extras-pvc"]) (pys "fia")) =
      .ok (cleanup_job_actions (pyStrOfStrList [pys "j-extras-pv"])
        (pyStrOfStrList [pys "j-extras-pvc"]) (pys "fia"), true) ∧
    ¬ ∃ a ∈ cleanup_job_actions (pyStrOfStrList [pys "j-extras-pv"])
        (pyStrOfStrList [pys "j-extras-pvc"]) (pys "fia"), a.isPatch = true := by
  constructor
  · rfl
  · rintro ⟨a, ha, hpatch⟩
    rcases List.mem_append.mp ha with h | h <;>
      rcases List.mem_map.mp h with ⟨x, -, rfl⟩ <;> simp [K8sAction.isPatch] at hpatch

/-- C1 (amended): for every job the watcher classifies as stalled while its
main container is present and not terminated, `check_for_changes` performs
exactly the cleanup of the job's volumes and claims and ends the observation
loop (`done_watching = true`), sending no PATCH status report at all on this
path. -/
theorem stalled_cleanup_without_report (containerName : List Char)
    (successActs failActs : List K8sAction) (e m : Int) (t : List Char)
    (pvsAnn pvcsAnn ns : List Char)
    (hstall : check_for_pod_stalled e m t = true) :
    check_for_changes_result containerName (some none) successActs failActs
        (check_for_pod_stalled e m t) (cleanup_job_actions pvsAnn pvcsAnn ns) =
      .ok (cleanup_job_actions pvsAnn pvcsAnn ns, true) ∧
    ∀ a ∈ cleanup_job_actions pvsAnn pvcsAnn ns, a.isPatch = false := by
  constructor
  · simp [check_for_changes_result, check_for_job_complete_result, hstall]
  · intro a ha
    rcases List.mem_append.mp ha with h | h <;>
      rcases List.mem_map.mp h with ⟨x, -, rfl⟩ <;> rfl

/-- C1 witness: the amended statement at the concrete stalled state used in
the counterexample. -/
theorem stalled_cleanup_without_report_witness :
    check_for_pod_stalled (35 * 60 * 1000000) 21600 [] = true ∧
    check_for_changes_result (pys "job1") (some none) [] []
        (check_for_pod_stalled (35 * 60 * 1000000) 21600 [])
        (cleanup_job_actions (pyStrOfStrList [pys "j-extras-pv"])
          (pyStrOfStrList [pys "j-extras-pvc"]) (pys "fia")) =
      .ok (cleanup_job_actions (pyStrOfStrList [pys "j-extras-pv"])
        (pyStrOfStrList [pys "j-extras-pvc"]) (pys "fia"), true) :=
  ⟨by decide,
    (stalled_cleanup_without_report (pys "job1") [] [] (35 * 60 * 1000000) 21600 []
      (pyStrOfStrList [pys "j-extras-pv"]) (pyStrOfStrList [pys "j-extras-pvc"])
      (pys "fia") (by decide)).1⟩

/-!
## Success payload extraction — `JobWatcher.process_job_success`
-/

/-- Embedding of the line choice in `process_job_success`
(job_watcher.py 355-357): split the log text on newlines, then take
`log_lines[-1]` when there is exactly one line and `log_lines[-2]`
otherwise. -/
def success_output_line (logs : List Char) : List Char :=
  let log_lines := List.splitOn '\n' logs
  if log_lines.length = 1 then log_lines.getLastD []
  else log_lines.getD (log_lines.length - 2) []

/-- Statement of the spec's words for comparison: the last non-empty line of
the newline-split log stream, if any. -/
def spec_last_nonempty_line (logs : List Char) : Option (List Char) :=
  ((List.splitOn '\n' logs).filter (fun l => !l.isEmpty)).getLast?

/-- Embedded Python `dict.get(key, default)` over decoded JSON objects. -/
def pyDictGetD (fields : List (List Char × PyVal)) (key : List Char)
    (dflt : PyVal) : PyVal :=
  match fields.lookup key with
  | some v => v
  | none => dflt

/-- Composite of the fallible steps inside the `try` block of
`process_job_success` (job_watcher.py 351-359): read the pod log, choose the
output line, decode it with `json.loads` (the oracle `jsonLoads`). -/
def read_and_parse (readLog : Except PyExc (List Char))
    (jsonLoads : List Char → Except PyExc PyVal) : Except PyExc PyVal :=
  match readLog with
  | .error e => .error e
  | .ok logs => jsonLoads (success_output_line logs)

/-- Embedding of `JobWatcher.process_job_success` (job_watcher.py 335-394) as
the PATCH payload it hands to `_update_job_status`.  All three `except`
clauses synthesise the same `UNSUCCESSFUL` dictionary with the exception text
as `status_message`, so they are modelled by a single error case.  After the
`try` block the source calls `.get` on the decoded value and `.upper()` on the
status, which raise (uncaught) `AttributeError` when the decoded JSON is not
an object or its `status` is not a string; `start` and `endStr` stand for the
oracle results of `_find_start_and_end_of_pod` (`str(end)` applied). -/
def process_job_success_patch (jobId : Option (List Char))
    (readLog : Except PyExc (List Char))
    (jsonLoads : List Char → Except PyExc PyVal)
    (start endStr : List Char) : Except PyExc PatchData :=
  let job_output : PyVal :=
    match read_and_parse readLog jsonLoads with
    | .ok v => v
    | .error e =>
      .dict [(pys "status", .str (pys "UNSUCCESSFUL")),
        (pys "output_files", .list []),
        (pys "status_message", .str e.text),
        (pys "stacktrace", .str [])]
  match job_output with
  | .dict fields =>
    match pyDictGetD fields (pys "status") (.str (pys "UNSUCCESSFUL")) with
    | .str status =>
      .ok { jobId := jobId, state := pyUpper status,
            statusMessage := pyDictGetD fields (pys "status_message") (.str []),
            outputFiles := pyDictGetD fields (pys "output_files") (.list []),
            start := start,
            stacktrace := pyDictGetD fields (pys "stacktrace") (.str []),
            endTime := endStr }
    | _ => .error (.attributeError (pys "object has no attribute upper"))
  | _ => .error (.attributeError (pys "object has no attribute get"))

/-- Splitting helper: a trailing separator contributes one trailing empty
piece. -/
theorem splitOn_append_single (c : Char) (body : List Char) :
    List.splitOn c (body ++ [c]) = List.splitOn c body ++ [[]] := by
  induction body with
  | nil =>
    simp [List.splitOn, List.splitOnP_cons, List.splitOnP_nil]
  | cons b body ih =>
    simp only [List.splitOn, List.cons_append, List.splitOnP_cons] at *
    by_cases hb : (b == c) = true
    · simp only [hb, if_true]
      rw [ih, List.cons_append]
    · simp only [hb, if_false, Bool.false_eq_true]
      rw [ih]
      have h1 : (List.splitOnP (fun x => x == c) body) ≠ [] := List.splitOnP_ne_nil _ _
      cases hsp : List.splitOnP (fun x => x == c) body with
      | nil => exact absurd hsp h1
      | cons h t => simp [List.modifyHead]

/-- Filtering helper: a non-empty final element survives the non-empty
filter as the final element. -/
theorem getLast_filter_nonempty (l : List (List Char)) (x : List Char)
    (hx : l.getLast? = some x) (hne : x ≠ []) :
    (l.filter (fun s => !s.isEmpty)).getLast? = some x := by
  rw [List.getLast?_eq_some_iff] at hx
  obtain ⟨l', rfl⟩ := hx
  rw [List.filter_append]
  have hsing : List.filter (fun s => !s.isEmpty) [x] = [x] := by
    rw [List.filter_cons]
    simp [List.isEmpty_iff, hne]
  rw [hsing, List.getLast?_concat]

/-- C5 counterexample: on the log text `"a\nb"` (no trailing newline) the
watcher parses the newline-split line at index -2, which is `"a"`, not the
last non-empty line `"b"` — so the claim that the success path parses the
last non-empty line is false as stated. -/
theorem success_line_choice_counterexample :
    success_output_line (pys "a\nb") = pys "a" ∧
    spec_last_nonempty_line (pys "a\nb") = some (pys "b") ∧
    pys "a" ≠ pys "b" := by
  refine ⟨by decide, by decide, by decide⟩

/-- C5 (amended): the success path parses `log_lines[-2]` (the sole line when
the split yields exactly one); whenever the log text ends in a single newline
and its final line is non-empty, that choice coincides with the last
non-empty line; and for every log input on which reading or JSON-decoding
fails, the watcher reports `UNSUCCESSFUL` with the exception text as
`status_message` and an empty output-file list. -/
theorem process_job_success_spec
    (jobId : Option (List Char)) (readLog : Except PyExc (List Char))
    (jsonLoads : List Char → Except PyExc PyVal) (start endStr : List Char) :
    (∀ e, read_and_parse readLog jsonLoads = .error e →
      process_job_success_patch jobId readLog jsonLoads start endStr =
        .ok { jobId := jobId, state := pys "UNSUCCESSFUL",
              statusMessage := .str e.text, outputFiles := .list [],
              start := start, stacktrace := .str [], endTime := endStr }) ∧
    (∀ body line, (List.splitOn '\n' body).getLast? = some line → line ≠ [] →
      success_output_line (body ++ ['\n']) = line ∧
      spec_last_nonempty_line (body ++ ['\n']) = some line) := by
  constructor
  · intro e he
    unfold process_job_success_patch
    rw [he]
    rfl
  · intro body line hlast hne
    have hsplit := splitOn_append_single '\n' body
    have hA : List.splitOn '\n' body ≠ [] := by
      simpa [List.splitOn] using List.splitOnP_ne_nil (fun x => x == '\n') body
    rw [List.getLast?_eq_some_iff] at hlast
    obtain ⟨l', hl'⟩ := hlast
    constructor
    · unfold success_output_line
      rw [hsplit, hl']
      rw [if_neg (by simp [List.length_append])]
      rw [List.getD_eq_getElem?_getD]
      have hidx : ((l' ++ [line]) ++ [[]]).length - 2 = l'.length := by
        simp [List.length_append]
      rw [hidx, List.append_assoc, List.getElem?_append_right (le_refl _)]
      simp
    · unfold spec_last_nonempty_line
      rw [hsplit, List.filter_append]
      have hnil : List.filter (fun s => !s.isEmpty) [([] : List Char)] = [] := rfl
      rw [hnil, List.append_nil]
      exact getLast_filter_nonempty _ _ (by rw [hl']; exact List.getLast?_concat _) hne

/-- C5 witness: a non-JSON final line yields the synthesised `UNSUCCESSFUL`
report with the decoder's message and no output files, and the line selection
picks the last non-empty line of a well-formed log. -/
theorem process_job_success_spec_witness :
    read_and_parse (.ok (pys "not json\n"))
        (fun _ => .error (.jsonDecodeError (pys "Expecting value"))) =
      .error (.jsonDecodeError (pys "Expecting value")) ∧
    process_job_success_patch (some (pys "7")) (.ok (pys "not json\n"))
        (fun _ => .error (.jsonDecodeError (pys "Expecting value")))
        (pys "start") (pys "end") =
      .ok { jobId := some (pys "7"), state := pys "UNSUCCESSFUL",
            statusMessage := .str (pys "Expecting value"), outputFiles := .list [],
            start := pys "start", stacktrace := .str [], endTime := pys "end" } ∧
    success_output_line (pys "done" ++ ['\n']) = pys "done" :=
  ⟨rfl,
    (process_job_success_spec (some (pys "7")) (.ok (pys "not json\n"))
      (fun _ => .error (.jsonDecodeError (pys "Expecting value")))
      (pys "start") (pys "end")).1 _ rfl,
    ((process_job_success_spec (some (pys "7")) (.ok (pys "not json\n"))
      (fun _ => .error (.jsonDecodeError (pys "Expecting value")))
      (pys "start") (pys "end")).2 (pys "done") (pys "done") (by decide) (by decide)).1⟩

/-!
## Job creator — message processing (`job_creator/jobcreator/main.py`)
-/

/-- Embedded Python truthiness (`if user_number:`) for optional values;
`none` stands for an absent key or Python `None`. -/
def pyTruthy : Option PyVal → Bool
  | none => false
  | some (.str s) => !s.isEmpty
  | some (.int n) => n != 0
  | some (.list l) => !l.isEmpty
  | some (.dict f) => !f.isEmpty

/-- Embedded `isinstance(job_id, int)` over our value model (the model has no
separate bool constructor, which Python would also accept here). -/
def pyIsInstanceInt : Option PyVal → Bool
  | some (.int _) => true
  | _ => false

mutual

/-- Embedded CPython `repr` of a value, used inside `str` of containers.
Escape-free strings only, as everywhere in this file. -/
def pyReprVal : PyVal → List Char
  | .str s => pyReprStr s
  | .int n => (toString n).toList
  | .list items => '[' :: pyReprValList items ++ [']']
  | .dict fields => '\x7b' :: pyReprValFields fields ++ ['\x7d']

/-- Comma-joined element reprs of a Python list. -/
def pyReprValList : List PyVal → List Char
  | [] => []
  | [v] => pyReprVal v
  | v :: rest => pyReprVal v ++ pys ", " ++ pyReprValList rest

/-- Comma-joined `key: value` reprs of a Python dict. -/
def pyReprValFields : List (List Char × PyVal) → List Char
  | [] => []
  | [(k, v)] => pyReprStr k ++ pys ": " ++ pyReprVal v
  | (k, v) :: rest => pyReprStr k ++ pys ": " ++ pyReprVal v ++ pys ", " ++ pyReprValFields rest

end

/-- Embedded Python `str(value)`: strings pass through unquoted, containers
and numbers render as their repr. -/
def pyStrVal : PyVal → List Char
  | .str s => s
  | v => pyReprVal v

/-- Embedded Python `str` of an optional value; an absent value is Python
`None` and renders as the four-character string `None`. -/
def pyStrOptVal : Option PyVal → List Char
  | none => pys "None"
  | some v => pyStrVal v

/-- Required node-affinity term of the generated pod spec
(`V1NodeSelectorRequirement`). -/
structure NodeSelectorRequirement where
  key : List Char
  operator : List Char
  values : List (List Char)
deriving DecidableEq, Repr

/-- Scheduling constraints `_generate_affinities` produces: the always-on
soft anti-affinity plus an optional required node affinity. -/
structure GeneratedAffinity where
  antiAffinityWeight : Nat
  antiAffinityTopologyKey : List Char
  antiAffinityLabel : List Char × List Char
  nodeAffinity : Option NodeSelectorRequirement
deriving DecidableEq, Repr

/-- Embedding of `_generate_affinities` (job_creator.py 188-219).  The
argument is the `affinity` dict handed to `spawn_job` (`none` is Python
`None`).  Whenever the argument is not `None` the source builds the node
selector with the literal key `node-type`, operator `In` and values
`[gpu-worker]`, never reading the supplied dictionary. -/
def _generate_affinities (node_affinity_dict : Option PyVal) : GeneratedAffinity :=
  { antiAffinityWeight := 100,
    antiAffinityTopologyKey := pys "kubernetes.io/hostname",
    antiAffinityLabel := (pys "reduce.isis.cclrc.ac.uk/job-source", pys "automated-reduction"),
    nodeAffinity :=
      match node_affinity_dict with
      | some _ => some { key := pys "node-type", operator := pys "In",
                         values := [pys "gpu-worker"] }
      | none => none }

/-- Embedding of `_generate_special_pvs` (main.py 62-75). -/
def _generate_special_pvs (instrument : List Char) : List (List Char) :=
  if pyLower instrument = pys "imat" then [pys "imat"] else []

/-- Embedding of `_select_taints_and_affinity` (main.py 94-109): the taint
list and the optional affinity dict chosen per instrument. -/
def _select_taints_and_affinity (instrument : List Char) : List PyVal × Option PyVal :=
  if pyLower instrument = pys "imat" then
    ([PyVal.dict [(pys "key", .str (pys "nvidia.com/gpu")),
        (pys "effect", .str (pys "NoSchedule")),
        (pys "operator", .str (pys "Exists"))]],
      some (PyVal.dict [(pys "key", .str (pys "node-type")),
        (pys "operator", .str (pys "In")),
        (pys "values", .list [.str (pys "gpu-worker")])]))
  else ([], none)

/-- Embedding of `create_ceph_mount_path_simple` (utils.py 62-90) as the
string the mount path renders to; the `mkdir` side effect is dropped.  The
guard raises `ValueError` unless exactly one of the two identifiers is a
(non-`None`) value. -/
def create_ceph_mount_path_simple (user_number experiment_number : Option (List Char))
    (mount_path : List Char) : Except PyExc (List Char) :=
  match user_number, experiment_number with
  | some u, none => .ok (mount_path ++ pys "/GENERIC/autoreduce/UserNumbers/" ++ u)
  | none, some e => .ok (mount_path ++ pys "/GENERIC/autoreduce/ExperimentNumbers/" ++ e)
  | _, _ => .error (.valueError
      (pys "Both user_number and experiment_number cannot be defined, but one must be."))

/-- POSIX path helper: the parent directory (`Path.parent`). -/
def posixParent (p : List Char) : List Char :=
  List.intercalate [ '/' ] ((List.splitOn '/' p).dropLast)

/-- POSIX path helper: the final component (`Path.name`). -/
def posixName (p : List Char) : List Char :=
  (List.splitOn '/' p).getLastD []

/-- POSIX path helper: replace the final component (`Path.with_name`). -/
def posixWithName (p n : List Char) : List Char :=
  List.intercalate [ '/' ] ((List.splitOn '/' p).dropLast ++ [n])

/-- POSIX path helper: join a relative component (`Path.joinpath`, `/`). -/
def posixJoin (p q : List Char) : List Char := p ++ [ '/' ] ++ q

/-- POSIX path helper: `Path.relative_to(root)` for paths under `root`. -/
def posixRelativeTo (root p : List Char) : List Char :=
  if (root ++ [ '/' ]).isPrefixOf p then p.drop (root.length + 1) else p

/-- Embedding of `create_ceph_path_autoreduction` (utils.py 24-31). -/
def create_ceph_path_autoreduction (instrument_name rb_number : List Char) : List Char :=
  pys "/ceph/" ++ instrument_name ++ pys "/RBNumber/RB" ++ rb_number ++ pys "/autoreduced"

/-- Embedding of `ensure_ceph_path_exists_autoreduction` (utils.py 93-112):
`fsExists` is the filesystem oracle; when the RB folder is absent its name is
replaced by `unknown`; `mkdir` side effects are dropped. -/
def ensure_ceph_path_exists_autoreduction (fsExists : List Char → Bool)
    (ceph_path : List Char) : List Char :=
  if fsExists ceph_path then ceph_path
  else
    let rb_folder := posixParent ceph_path
    if fsExists rb_folder then ceph_path
    else posixJoin (posixWithName rb_folder (pys "unknown")) (posixName ceph_path)

/-- Embedding of `create_ceph_mount_path_autoreduction` (utils.py 115-130). -/
def create_ceph_mount_path_autoreduction (fsExists : List Char → Bool)
    (instrument_name rb_number mount_path : List Char) : List Char :=
  let ceph_path := create_ceph_path_autoreduction instrument_name rb_number
  let ceph_path := ensure_ceph_path_exists_autoreduction fsExists ceph_path
  posixJoin mount_path (posixRelativeTo (pys "/ceph") ceph_path)

/-- Embedding of `Path(filepath).stem`: the final path component without its
last suffix (pathlib keeps the name when the only dot is leading or
trailing). -/
def pathStem (filepath : List Char) : List Char :=
  let name := (List.splitOn '/' filepath).getLastD []
  let j := name.reverse.indexOf '.'
  if j = name.length then name
  else
    let i := name.length - 1 - j
    if 0 < i ∧ i < name.length - 1 then name.take i else name

/-- Fields of a `simple` message that `process_simple_message` reads; `none`
models an absent key (and, via `dict.get`, Python `None`). -/
structure SimpleMessage where
  runner_image : Option (List Char)
  script : Option (List Char)
  user_number : Option PyVal
  experiment_number : Option PyVal
  job_id : Option PyVal
  taints : Option PyVal
  affinity : Option PyVal

/-- Fields of a `rerun` message that `process_rerun_message` reads. -/
structure RerunMessage where
  runner_image : Option (List Char)
  script : Option (List Char)
  instrument : Option (List Char)
  rb_number : Option PyVal
  filename : Option PyVal
  job_id : Option PyVal

/-- Fields of an `autoreduction` message that `process_autoreduction_message`
reads (the metadata bundle fields it forwards are kept as opaque values). -/
structure AutoreductionMessage where
  filepath : Option (List Char)
  experiment_number : Option PyVal
  instrument : Option (List Char)
  runner_image : Option (List Char)

/-- Arguments of the `JOB_CREATOR.spawn_job` call a processing path makes. -/
structure SpawnJobCall where
  job_name : List Char
  script : List Char
  ceph_mount_path : List Char
  job_id : Option PyVal
  runner_image : List Char
  special_pvs : List (List Char)
  taints : PyVal
  affinity : Option PyVal

/-- Outcome of one message-handler invocation: either `spawn_job` was reached
with these arguments, or an exception was caught by the handler's blanket
`except Exception` and logged (nothing propagates to the consumer). -/
inductive MessageResult where
  | spawned (call : SpawnJobCall)
  | droppedWithError (e : PyExc)

/-- Embedding of `process_simple_message` (main.py 112-170).  `ghcr` is the
registry oracle of `find_sha256_of_image`, `jsonLoads` the `json.loads`
oracle, `uuid_hex` the value of `uuid.uuid4().hex`.  Note the source parses
the `affinity` field by decoding `str(taints)` (line 130), checks
`isinstance(job_id, int)` before building any resource, truncates the job
name to 50 characters, and passes exactly one of `str(user_number)` /
`str(experiment_number)` to `create_ceph_mount_path_simple`. -/
def process_simple_message_attempt (ghcr : List Char → List Char → Except PyExc (List Char))
    (jsonLoads : List Char → Except PyExc PyVal) (uuid_hex : List Char)
    (message : SimpleMessage) : Except PyExc SpawnJobCall :=
  match message.runner_image with
    | none => .error (.keyError (pys "runner_image"))
    | some img =>
      let runner_image := find_sha256_of_image ghcr img
      match message.script with
      | none => .error (.keyError (pys "script"))
      | some script =>
        match (match message.taints with
               | none => Except.ok (PyVal.list [])
               | some v => jsonLoads (pyStrVal v)) with
        | .error e => .error e
        | .ok taints =>
          match (match message.affinity with
                 | none => Except.ok (PyVal.dict [])
                 | some _ => jsonLoads (pyStrVal taints)) with
          | .error e => .error e
          | .ok affinity =>
            if pyIsInstanceInt message.job_id = false then
              .error (.valueError (pys "job_id must be an integer"))
            else
              let job_name :=
                if pyTruthy message.user_number then
                  pys "run-owner" ++ pyLower (pyStrOptVal message.user_number) ++
                    pys "-requested-" ++ uuid_hex
                else
                  pys "run-owner" ++ pyLower (pyStrOptVal message.experiment_number) ++
                    pys "-requested-" ++ uuid_hex
              let job_name := if job_name.length > 50 then job_name.take 50 else job_name
              match (if pyTruthy message.user_number then
                       create_ceph_mount_path_simple
                         (some (pyStrOptVal message.user_number)) none
                         (pys "/isis/instrument")
                     else
                       create_ceph_mount_path_simple none
                         (some (pyStrOptVal message.experiment_number))
                         (pys "/isis/instrument")) with
              | .error e => .error e
              | .ok ceph_mount_path =>
                .ok { job_name := job_name, script := script,
                      ceph_mount_path := ceph_mount_path,
                      job_id := message.job_id, runner_image := runner_image,
                      special_pvs := [], taints := taints, affinity := some affinity }

/-- Handler boundary of `process_simple_message`: the blanket
`except Exception` catches and logs anything the body raised. -/
def process_simple_message (ghcr : List Char → List Char → Except PyExc (List Char))
    (jsonLoads : List Char → Except PyExc PyVal) (uuid_hex : List Char)
    (message : SimpleMessage) : MessageResult :=
  match process_simple_message_attempt ghcr jsonLoads uuid_hex message with
  | .ok call => .spawned call
  | .error e => .droppedWithError e

/-- Embedding of `process_rerun_message` (main.py 173-214): no truncation is
applied to `job_name`; `fsExists` is the filesystem oracle of the ceph-path
helpers. -/
def process_rerun_message_attempt (ghcr : List Char → List Char → Except PyExc (List Char))
    (fsExists : List Char → Bool) (uuid_hex : List Char)
    (message : RerunMessage) : Except PyExc SpawnJobCall :=
  match message.runner_image with
    | none => .error (.keyError (pys "runner_image"))
    | some img =>
      let runner_image := find_sha256_of_image ghcr img
      match message.script with
      | none => .error (.keyError (pys "script"))
      | some script =>
        match message.instrument with
        | none => .error (.keyError (pys "instrument"))
        | some instrument =>
          match message.rb_number with
          | none => .error (.keyError (pys "rb_number"))
          | some rb =>
            let ceph_mount_path := create_ceph_mount_path_autoreduction fsExists
              instrument (pyStrVal rb) (pys "/isis/instrument")
            let special_pvs := _generate_special_pvs instrument
            let taints_affinity := _select_taints_and_affinity instrument
            match message.filename with
            | none => .error (.keyError (pys "filename"))
            | some filename =>
              let job_name := pys "run-" ++ pyLower (pyStrVal filename) ++
                pys "-" ++ uuid_hex
              match message.job_id with
              | none => .error (.keyError (pys "job_id"))
              | some job_id =>
                .ok { job_name := job_name, script := script,
                      ceph_mount_path := ceph_mount_path,
                      job_id := some job_id, runner_image := runner_image,
                      special_pvs := special_pvs,
                      taints := .list taints_affinity.1,
                      affinity := taints_affinity.2 }

/-- Handler boundary of `process_rerun_message`. -/
def process_rerun_message (ghcr : List Char → List Char → Except PyExc (List Char))
    (fsExists : List Char → Bool) (uuid_hex : List Char)
    (message : RerunMessage) : MessageResult :=
  match process_rerun_message_attempt ghcr fsExists uuid_hex message with
  | .ok call => .spawned call
  | .error e => .droppedWithError e

/-- Embedding of `process_autoreduction_message` (main.py 217-277), kept to
the steps the claims exercise: `filename = Path(filepath).stem`, per-
instrument runner/taints/extras selection, the `POST /jobs/autoreduction`
round-trip as the oracle `postJob` returning `(script, job_id)`, and the
untruncated `job_name`.  The metadata bundle conversions (`int(...)`) are
subsumed by `postJob`'s error case, which the handler catches like any
other exception. -/
def process_autoreduction_message_attempt
    (ghcr : List Char → List Char → Except PyExc (List Char))
    (fsExists : List Char → Bool)
    (postJob : Except PyExc (List Char × PyVal))
    (default_runner : List Char) (uuid_hex : List Char)
    (message : AutoreductionMessage) : Except PyExc SpawnJobCall :=
  match message.filepath with
    | none => .error (.keyError (pys "filepath"))
    | some filepath =>
      let filename := pathStem filepath
      match message.experiment_number with
      | none => .error (.keyError (pys "experiment_number"))
      | some rb =>
        match message.instrument with
        | none => .error (.keyError (pys "instrument"))
        | some instrument_name =>
          let runner_image :=
            match message.runner_image with
            | none => default_runner
            | some r => r
          let runner_image := find_sha256_of_image ghcr runner_image
          let special_pvs := _generate_special_pvs instrument_name
          let taints_affinity := _select_taints_and_affinity instrument_name
          let job_name := pys "run-" ++ pyLower filename ++ pys "-" ++ uuid_hex
          match postJob with
          | .error e => .error e
          | .ok (script, job_id) =>
            let ceph_mount_path := create_ceph_mount_path_autoreduction fsExists
              instrument_name (pyStrVal rb) (pys "/isis/instrument")
            .ok { job_name := job_name, script := script,
                  ceph_mount_path := ceph_mount_path,
                  job_id := some job_id, runner_image := runner_image,
                  special_pvs := special_pvs,
                  taints := .list taints_affinity.1,
                  affinity := taints_affinity.2 }

/-- Handler boundary of `process_autoreduction_message`. -/
def process_autoreduction_message
    (ghcr : List Char → List Char → Except PyExc (List Char))
    (fsExists : List Char → Bool)
    (postJob : Except PyExc (List Char × PyVal))
    (default_runner : List Char) (uuid_hex : List Char)
    (message : AutoreductionMessage) : MessageResult :=
  match process_autoreduction_message_attempt ghcr fsExists postJob default_runner
      uuid_hex message with
  | .ok call => .spawned call
  | .error e => .droppedWithError e

/-- Accessor: was a workload submitted for this message? -/
def MessageResult.wasSpawned : MessageResult → Bool
  | .spawned _ => true
  | .droppedWithError _ => false

/-- Accessor: length of the submitted job name (0 when nothing was
submitted). -/
def MessageResult.spawnedJobNameLength : MessageResult → Nat
  | .spawned c => c.job_name.length
  | .droppedWithError _ => 0

/-- Accessor: the required node affinity the submitted workload would carry,
as `spawn_job` computes it via `_generate_affinities` (job_creator.py 415);
`none` when nothing was submitted. -/
def MessageResult.spawnedNodeAffinity : MessageResult → Option (Option NodeSelectorRequirement)
  | .spawned c => some ((_generate_affinities c.affinity).nodeAffinity)
  | .droppedWithError _ => none

/-- Handler-boundary helper: the catch-all wrapper reports `spawned` exactly
when the body returned a call. -/
theorem spawned_iff_attempt_ok (a : Except PyExc SpawnJobCall) (call : SpawnJobCall) :
    (match a with
      | Except.ok c => MessageResult.spawned c
      | Except.error e => MessageResult.droppedWithError e) = .spawned call ↔
    a = .ok call := by
  cases a <;> simp

/-- C3 counterexample: a rerun message whose `filename` has 14 characters,
with a 32-character uuid hex, is submitted with a 51-character `job_name` —
the 50-character bound claimed for every path fails outside the simple
path. -/
theorem job_name_length_counterexample :
    (process_rerun_message (fun _ _ => Except.error (PyExc.otherError []))
      (fun _ => true) (pys "0123456789abcdef0123456789abcdef")
      { runner_image := some (pys "ghcr.io/fiaisis/mantid@sha256:abc"),
        script := some (pys "print(1)"), instrument := some (pys "mari"),
        rb_number := some (.str (pys "42")),
        filename := some (.str (pys "abcdefghijklmn")),
        job_id := some (.int 1) }).spawnedJobNameLength = 51 ∧ 51 > 50 := by
  exact ⟨by decide, by decide⟩

/-- C3 (amended): only the simple path truncates — every workload the simple
path submits has a `job_name` of at most 50 characters, while the rerun and
autoreduction paths submit `run-<lowercased filename>-<uuid-hex>` untruncated,
which exceeds 50 characters whenever the lowercased filename plus the hex
suffix exceeds 45 characters. -/
theorem job_name_truncation_simple_only :
    (∀ (ghcr : List Char → List Char → Except PyExc (List Char))
       (jsonLoads : List Char → Except PyExc PyVal) (uuid_hex : List Char)
       (message : SimpleMessage) (call : SpawnJobCall),
      process_simple_message ghcr jsonLoads uuid_hex message = .spawned call →
      call.job_name.length ≤ 50) ∧
    (∀ (ghcr : List Char → List Char → Except PyExc (List Char))
       (fsExists : List Char → Bool) (uuid_hex : List Char)
       (message : RerunMessage) (call : SpawnJobCall) (f : PyVal),
      message.filename = some f →
      process_rerun_message ghcr fsExists uuid_hex message = .spawned call →
      call.job_name = pys "run-" ++ pyLower (pyStrVal f) ++ pys "-" ++ uuid_hex) ∧
    (∀ (ghcr : List Char → List Char → Except PyExc (List Char))
       (fsExists : List Char → Bool) (postJob : Except PyExc (List Char × PyVal))
       (default_runner uuid_hex : List Char)
       (message : AutoreductionMessage) (call : SpawnJobCall) (fp : List Char),
      message.filepath = some fp →
      process_autoreduction_message ghcr fsExists postJob default_runner uuid_hex
        message = .spawned call →
      call.job_name = pys "run-" ++ pyLower (pathStem fp) ++ pys "-" ++ uuid_hex) := by
  refine ⟨?_, ?_, ?_⟩
  · intro ghcr jsonLoads uuid_hex message call h
    unfold process_simple_message at h
    rw [spawned_iff_attempt_ok] at h
    simp only [process_simple_message_attempt] at h
    repeat' split at h
    all_goals first
      | exact Except.noConfusion h
      | (simp only [Except.ok.injEq] at h
         subst h
         simp only [List.length_take]
         omega)
  · intro ghcr fsExists uuid_hex message call f hf h
    unfold process_rerun_message at h
    rw [spawned_iff_attempt_ok] at h
    simp only [process_rerun_message_attempt] at h
    repeat' split at h
    all_goals first
      | exact Except.noConfusion h
      | (simp only [Except.ok.injEq] at h
         subst h
         simp_all)
  · intro ghcr fsExists postJob default_runner uuid_hex message call fp hfp h
    unfold process_autoreduction_message at h
    rw [spawned_iff_attempt_ok] at h
    simp only [process_autoreduction_message_attempt] at h
    repeat' split at h
    all_goals first
      | exact Except.noConfusion h
      | (simp only [Except.ok.injEq] at h
         subst h
         simp_all)

/-- C3 witness: the simple path truncates a 71-character candidate name to
50 characters at a concrete message. -/
theorem job_name_truncation_simple_only_witness :
    process_simple_message (fun _ _ => Except.error (PyExc.otherError []))
        (fun _ => Except.error (PyExc.otherError []))
        (pys "0123456789abcdef0123456789abcdef")
        { runner_image := some (pys "ghcr.io/fiaisis/mantid@sha256:abc"),
          script := some (pys "print(1)"),
          user_number := some (.str (pys "1234567890123456789")),
          experiment_number := none, job_id := some (.int 1),
          taints := none, affinity := none } = .spawned
          { job_name := (pys "run-owner1234567890123456789-requested-0123456789abcdef0123456789abcdef").take 50,
            script := pys "print(1)",
            ceph_mount_path := pys "/isis/instrument/GENERIC/autoreduce/UserNumbers/1234567890123456789",
            job_id := some (.int 1),
            runner_image := pys "ghcr.io/fiaisis/mantid@sha256:abc",
            special_pvs := [], taints := .list [], affinity := some (.dict []) } ∧
    ((pys "run-owner1234567890123456789-requested-0123456789abcdef0123456789abcdef").take 50).length ≤ 50 := by
  refine ⟨rfl, ?_⟩
  exact (job_name_truncation_simple_only).1
    (fun _ _ => Except.error (PyExc.otherError []))
    (fun _ => Except.error (PyExc.otherError []))
    (pys "0123456789abcdef0123456789abcdef")
    { runner_image := some (pys "ghcr.io/fiaisis/mantid@sha256:abc"),
      script := some (pys "print(1)"),
      user_number := some (.str (pys "1234567890123456789")),
      experiment_number := none, job_id := some (.int 1),
      taints := none, affinity := none }
    { job_name := (pys "run-owner1234567890123456789-requested-0123456789abcdef0123456789abcdef").take 50,
      script := pys "print(1)",
      ceph_mount_path := pys "/isis/instrument/GENERIC/autoreduce/UserNumbers/1234567890123456789",
      job_id := some (.int 1),
      runner_image := pys "ghcr.io/fiaisis/mantid@sha256:abc",
      special_pvs := [], taints := .list [], affinity := some (.dict []) }
    rfl

/-- C6 counterexample: a simple message with both `user_number` and
`experiment_number` set, and one with neither set, are both accepted — a
workload is submitted and no `ValueError` reaches the handler, contradicting
the claimed rejection. -/
theorem owner_guard_counterexample :
    (process_simple_message (fun _ _ => Except.error (PyExc.otherError []))
      (fun _ => Except.error (PyExc.otherError []))
      (pys "0123456789abcdef0123456789abcdef")
      { runner_image := some (pys "ghcr.io/fiaisis/mantid@sha256:abc"),
        script := some (pys "print(1)"), user_number := some (.str (pys "7")),
        experiment_number := some (.str (pys "8")), job_id := some (.int 1),
        taints := none, affinity := none }).wasSpawned = true ∧
    (process_simple_message (fun _ _ => Except.error (PyExc.otherError []))
      (fun _ => Except.error (PyExc.otherError []))
      (pys "0123456789abcdef0123456789abcdef")
      { runner_image := some (pys "ghcr.io/fiaisis/mantid@sha256:abc"),
        script := some (pys "print(1)"), user_number := none,
        experiment_number := none, job_id := some (.int 1),
        taints := none, affinity := none }).wasSpawned = true := by
  exact ⟨by decide, by decide⟩

/-- C6 (amended): the both-set / neither-set `ValueError` lives in
`create_ceph_mount_path_simple`, which raises it exactly when both or neither
of its arguments is provided; `process_simple_message`, however, always
passes exactly one argument (`str(user_number)` when `user_number` is truthy,
else `str(experiment_number)`), so a both-set simple message proceeds with the
user number, a neither-set message proceeds with the literal string `None`,
and in each case a workload is submitted with no rejection. -/
theorem owner_guard_bypassed :
    (∀ (u e : Option (List Char)) (mount : List Char),
      (∃ msg, create_ceph_mount_path_simple u e mount = .error (.valueError msg)) ↔
        ((u = none ∧ e = none) ∨ (u ≠ none ∧ e ≠ none))) ∧
    (∀ (ghcr : List Char → List Char → Except PyExc (List Char))
       (jsonLoads : List Char → Except PyExc PyVal) (uuid_hex : List Char)
       (message : SimpleMessage) (ri s : List Char) (ev : PyVal),
      message.runner_image = some ri → message.script = some s →
      message.taints = none → message.affinity = none →
      pyIsInstanceInt message.job_id = true →
      pyTruthy message.user_number = true → message.experiment_number = some ev →
      (process_simple_message ghcr jsonLoads uuid_hex message).wasSpawned = true) ∧
    (∀ (ghcr : List Char → List Char → Except PyExc (List Char))
       (jsonLoads : List Char → Except PyExc PyVal) (uuid_hex : List Char)
       (message : SimpleMessage) (ri s : List Char),
      message.runner_image = some ri → message.script = some s →
      message.taints = none → message.affinity = none →
      pyIsInstanceInt message.job_id = true →
      message.user_number = none → message.experiment_number = none →
      (process_simple_message ghcr jsonLoads uuid_hex message).wasSpawned = true) := by
  refine ⟨?_, ?_, ?_⟩
  · intro u e mount
    cases u <;> cases e <;>
      simp [create_ceph_mount_path_simple]
  · intro ghcr jsonLoads uuid_hex message ri s ev hri hs ht ha hj hu he
    simp [process_simple_message, process_simple_message_attempt, hri, hs, ht, ha,
      hj, hu, he, create_ceph_mount_path_simple, MessageResult.wasSpawned]
  · intro ghcr jsonLoads uuid_hex message ri s hri hs ht ha hj hu he
    simp [process_simple_message, process_simple_message_attempt, hri, hs, ht, ha,
      hj, hu, he, pyTruthy, create_ceph_mount_path_simple, MessageResult.wasSpawned]

/-- C6 witness: the amended statement at the concrete both-set and neither-set
messages of the counterexample. -/
theorem owner_guard_bypassed_witness :
    (∃ msg, create_ceph_mount_path_simple (some (pys "7")) (some (pys "8"))
        (pys "/isis/instrument") = .error (.valueError msg)) ∧
    (process_simple_message (fun _ _ => Except.error (PyExc.otherError []))
      (fun _ => Except.error (PyExc.otherError []))
      (pys "0123456789abcdef0123456789abcdef")
      { runner_image := some (pys "ghcr.io/fiaisis/mantid@sha256:abc"),
        script := some (pys "print(1)"), user_number := some (.str (pys "7")),
        experiment_number := some (.str (pys "8")), job_id := some (.int 1),
        taints := none, affinity := none }).wasSpawned = true := by
  constructor
  · exact (owner_guard_bypassed.1 (some (pys "7")) (some (pys "8"))
      (pys "/isis/instrument")).mpr (Or.inr ⟨by simp, by simp⟩)
  · exact owner_guard_bypassed.2.1 (fun _ _ => Except.error (PyExc.otherError []))
      (fun _ => Except.error (PyExc.otherError []))
      (pys "0123456789abcdef0123456789abcdef")
      { runner_image := some (pys "ghcr.io/fiaisis/mantid@sha256:abc"),
        script := some (pys "print(1)"), user_number := some (.str (pys "7")),
        experiment_number := some (.str (pys "8")), job_id := some (.int 1),
        taints := none, affinity := none }
      (pys "ghcr.io/fiaisis/mantid@sha256:abc") (pys "print(1)") (.str (pys "8"))
      rfl rfl rfl rfl rfl rfl rfl

/-- C10: for every simple message that reaches the type check with a
non-integer (or absent) `job_id` — its `runner_image` and `script` present
and its `taints`/`affinity` decoding steps succeeding — processing raises
`ValueError` (`job_id must be an integer`) before `spawn_job` is reached, so
no volume, claim or workload is created; the handler's blanket `except`
converts it into a logged drop and nothing propagates to the consumer. -/
theorem job_id_type_guard
    (ghcr : List Char → List Char → Except PyExc (List Char))
    (jsonLoads : List Char → Except PyExc PyVal) (uuid_hex : List Char)
    (message : SimpleMessage) (ri s : List Char) (tv av : PyVal)
    (hri : message.runner_image = some ri) (hs : message.script = some s)
    (ht : (match message.taints with
           | none => Except.ok (PyVal.list [])
           | some v => jsonLoads (pyStrVal v)) = .ok tv)
    (ha : (match message.affinity with
           | none => Except.ok (PyVal.dict [])
           | some _ => jsonLoads (pyStrVal tv)) = .ok av)
    (hj : pyIsInstanceInt message.job_id = false) :
    process_simple_message ghcr jsonLoads uuid_hex message =
      .droppedWithError (.valueError (pys "job_id must be an integer")) := by
  simp [process_simple_message, process_simple_message_attempt, hri, hs, ht, ha, hj]

/-- C10 witness: a simple message whose `job_id` is the string `nope` is
dropped with the `ValueError` and no workload is submitted. -/
theorem job_id_type_guard_witness :
    process_simple_message (fun _ _ => Except.error (PyExc.otherError []))
      (fun _ => Except.error (PyExc.otherError []))
      (pys "0123456789abcdef0123456789abcdef")
      { runner_image := some (pys "ghcr.io/fiaisis/mantid@sha256:abc"),
        script := some (pys "print(1)"), user_number := some (.str (pys "7")),
        experiment_number := none, job_id := some (.str (pys "nope")),
        taints := none, affinity := none } =
      .droppedWithError (.valueError (pys "job_id must be an integer")) :=
  job_id_type_guard (fun _ _ => Except.error (PyExc.otherError []))
    (fun _ => Except.error (PyExc.otherError []))
    (pys "0123456789abcdef0123456789abcdef")
    { runner_image := some (pys "ghcr.io/fiaisis/mantid@sha256:abc"),
      script := some (pys "print(1)"), user_number := some (.str (pys "7")),
      experiment_number := none, job_id := some (.str (pys "nope")),
      taints := none, affinity := none }
    (pys "ghcr.io/fiaisis/mantid@sha256:abc") (pys "print(1)")
    (.list []) (.dict []) rfl rfl rfl rfl rfl

/-- Node selector that `_generate_affinities` hard-codes whenever its
argument is not `None` (job_creator.py 212). -/
def gpu_worker_requirement : NodeSelectorRequirement :=
  { key := pys "node-type", operator := pys "In", values := [pys "gpu-worker"] }

/-- C4: `_generate_affinities` attaches the hard-coded
`node-type In [gpu-worker]` required affinity for every non-`None` argument,
ignoring the supplied dictionary, and `process_simple_message` passes a
non-`None` value even when the message supplies no affinity (an empty dict)
— so a simple message without an `affinity` field still gets the gpu-worker
required node affinity, and one supplying `cpu-worker` gets `gpu-worker`
(the source also decodes the affinity from `str(taints)`, main.py 130). -/
theorem affinity_request_ignored :
    (∀ v : PyVal, (_generate_affinities (some v)).nodeAffinity =
      some gpu_worker_requirement) ∧
    (_generate_affinities none).nodeAffinity = none ∧
    (process_simple_message (fun _ _ => Except.error (PyExc.otherError []))
        (fun s => if s = pys "[]" then Except.ok (PyVal.list [])
          else Except.error (PyExc.jsonDecodeError (pys "Expecting value")))
        (pys "0123456789abcdef0123456789abcdef")
        { runner_image := some (pys "ghcr.io/fiaisis/mantid@sha256:abc"),
          script := some (pys "print(1)"), user_number := some (.str (pys "7")),
          experiment_number := none, job_id := some (.int 1),
          taints := none, affinity := none }).spawnedNodeAffinity =
      some (some gpu_worker_requirement) ∧
    (process_simple_message (fun _ _ => Except.error (PyExc.otherError []))
        (fun s => if s = pys "[]" then Except.ok (PyVal.list [])
          else Except.error (PyExc.jsonDecodeError (pys "Expecting value")))
        (pys "0123456789abcdef0123456789abcdef")
        { runner_image := some (pys "ghcr.io/fiaisis/mantid@sha256:abc"),
          script := some (pys "print(1)"), user_number := some (.str (pys "7")),
          experiment_number := none, job_id := some (.int 1),
          taints := none,
          affinity := some (.dict [(pys "key", .str (pys "node-type")),
            (pys "operator", .str (pys "In")),
            (pys "values", .list [.str (pys "cpu-worker")])]) }).spawnedNodeAffinity =
      some (some gpu_worker_requirement) := by
  exact ⟨fun v => rfl, rfl, by decide, by decide⟩
